import Mathlib

/-!
Shallow embedding of the podlaunch supervisor (src/main.py, class PodKeeper).

The container engine, filesystem and clock are modelled as oracles; every
external invocation the control thread performs is recorded as an event in a
trace.  Signal handlers are pure state transformers on the latches and the
passthrough queue; the event loop consumes one batch of handler invocations
per wake-up, mirroring the single-consumer structure of the Python code.
Exceptions (sh.ErrorReturnCode escaping a call that is not wrapped in
try/except) are modelled with an explicit Option exception component, and the
try/finally around the event loop is modelled by appending the stop_pod trace
on every loop exit, normal or exceptional.
-/

/-- Signal numbers used by main.py (Linux numbering, as in the signal module). -/
def SIGHUP : Int := 1

def SIGINT : Int := 2

def SIGALRM : Int := 14

def SIGTERM : Int := 15

def SIGUSR1 : Int := 10

def SIGUSR2 : Int := 12

/-- Splitting a character list on the path separator, keeping empty
segments (they are filtered afterwards, as pathlib does). -/
def splitSlashChars : List Char → List (List Char)
  | [] => [[]]
  | c :: rest =>
    let r := splitSlashChars rest
    if c = '/' then [] :: r
    else
      match r with
      | [] => [[c]]
      | seg :: ss => (c :: seg) :: ss

/-- Number of leading path separators (pathlib treats exactly two as the
special double-slash root). -/
def leadingSlashes : List Char → Nat
  | [] => 0
  | c :: rest => if c = '/' then leadingSlashes rest + 1 else 0

/-- Parsing of pathlib.PurePath for POSIX: the root becomes a first part
(with the two-leading-slash special case), the remaining parts are the
segments that are neither empty nor a single dot. -/
def purePathParts (s : String) : List String :=
  let segs := ((splitSlashChars s.data).filter
      (fun p => !(p.isEmpty) && (p != [('.' : Char)]))).map (fun p => String.mk p)
  let k := leadingSlashes s.data
  if k = 0 then segs
  else if k = 2 then ("//") :: segs
  else ("/") :: segs

/-- One container entry of the pod description returned by podman pod inspect:
a name and a state string. -/
structure Container where
  name : String
  state : String
  deriving DecidableEq, Repr

/-- Structured stderr diagnostics printed by main.py. -/
inductive LogMsg where
  | replacingPod
  | startingPod
  | sendingSignal (signum : Int)
  | errorSignalingPod
  | containerExited (name : String)
  | logSinceHeader
  | stoppingPod
  | firstStopFailed
  | secondStopFailed
  | removalFailed
  deriving DecidableEq, Repr

/-- Observable events of the control thread: engine invocations, service
manager notifications and diagnostic log lines. -/
inductive Ev where
  | existsCheck (pod : String)
  | stopNoTimeout (pod : String)
  | rmForce (pod : String)
  | playKube (yaml : String) (args : List String)
  | sdnotifyReady
  | sdnotifyStopping
  | kill (signum : Int) (pod : String)
  | inspect (pod : String)
  | logs (since : Int) (container : String)
  | stopT (timeoutSecs : Nat) (pod : String)
  | rm (pod : String)
  | log (m : LogMsg)
  deriving DecidableEq, Repr

/-- Exceptions that can escape the loop body: podman pod inspect failing in
check_pod, or shlog.podman.logs failing there (neither is wrapped in
try/except in main.py). -/
inductive Exn where
  | inspectFailed
  | logsFailed (container : String)
  deriving DecidableEq, Repr

/-- Exceptions raised in run before the try/finally block is entered. -/
inductive StartExn where
  | replaceStopFailed
  | replaceRmFailed
  | playKubeFailed
  deriving DecidableEq, Repr

/-- Errors raised by PodKeeper.__init__. -/
inductive InitErr where
  | valueError
  | notADirectoryError
  | fileNotFoundError
  deriving DecidableEq, Repr

/-- Mutable state of a PodKeeper instance: the threading.Event latches, the
SimpleQueue of passthrough signal numbers and the last_check timestamp
(timestamps are modelled as integers). -/
structure KState where
  stopping : Bool
  reloading : Bool
  checking : Bool
  waiter : Bool
  passing : Bool
  queue : List Int
  lastCheck : Int
  deriving DecidableEq, Repr

/-- Immutable configuration of a PodKeeper instance computed by __init__. -/
structure Config where
  replace : Bool
  remove : Bool
  podname : String
  podyaml : String
  podnetArgs : List String
  deriving DecidableEq, Repr

/-- Per-run oracle: results of the engine calls made outside the event loop,
plus whether NOTIFY_SOCKET is present in the environment. -/
structure RunEnv where
  podExists : Bool
  replaceStopOk : Bool
  replaceRmOk : Bool
  playKubeOk : Bool
  stop19Ok : Bool
  stop5Ok : Bool
  rmOk : Bool
  notifySocket : Bool
  deriving DecidableEq, Repr

/-- Per-iteration oracle: outcome of podman pod kill per signal number,
the pod description returned by inspect (none when inspect fails), outcome of
podman logs per container name, and the clock reading datetime.utcnow()
taken at the start of check_pod. -/
structure IterOracle where
  killOk : Int → Bool
  inspectRes : Option (List Container)
  logsOk : String → Bool
  now : Int

/-- The filesystem oracle consulted by __init__. -/
structure Fs where
  podhomeExists : Bool
  podyamlExists : Bool
  deriving DecidableEq, Repr

/-- An asynchronous handler invocation, named after the PodKeeper methods
registered as signal handlers in main. -/
inductive HandlerCall where
  | destroy (signum : Int)
  | reload (signum : Int)
  | check (signum : Int)
  | passthrough (signum : Int)
  deriving Repr

/-- Effect of one handler invocation on the shared state, mirroring
PodKeeper.destroy, PodKeeper.reload, PodKeeper.check and
PodKeeper.passthrough. -/
def applyHandler (st : KState) : HandlerCall → KState
  | .destroy _ => { st with stopping := true, waiter := true }
  | .reload _ => { st with reloading := true, waiter := true }
  | .check _ => { st with checking := true, waiter := true }
  | .passthrough s => { st with queue := st.queue ++ [s], passing := true, waiter := true }

/-- The handler invocations delivered before one wake-up of the loop. -/
def applyBatch (st : KState) (calls : List HandlerCall) : KState :=
  calls.foldl applyHandler st

/-- The handler invocations of one loop wake-up together with the oracle for
the engine calls of that iteration. -/
structure Batch where
  calls : List HandlerCall
  oracle : IterOracle

/-- PodKeeper.signal_pod: log, attempt podman pod kill, and on
sh.ErrorReturnCode log the error (the exception is caught). -/
def signal_pod (cfg : Config) (ok : Bool) (signum : Int) : List Ev :=
  [Ev.log (LogMsg.sendingSignal signum), Ev.kill signum cfg.podname]
    ++ (if ok then [] else [Ev.log LogMsg.errorSignalingPod])

/-- The per-container loop of PodKeeper.check_pod: for every container whose
state is not running, print diagnostics, fetch its logs since
last_check - 10s (this call raises on failure, uncaught), then set the
stopping latch. -/
def check_containers (logsOk : String → Bool) :
    KState → List Container → KState × List Ev × Option Exn
  | st, [] => (st, [], none)
  | st, c :: rest =>
    if c.state = "running" then
      check_containers logsOk st rest
    else
      let evs := [Ev.log (LogMsg.containerExited c.name), Ev.log LogMsg.logSinceHeader,
                  Ev.logs (st.lastCheck - 10) c.name]
      if logsOk c.name then
        match check_containers logsOk { st with stopping := true } rest with
        | (st2, evs2, e) => (st2, evs ++ evs2, e)
      else (st, evs, some (Exn.logsFailed c.name))

/-- PodKeeper.check_pod: take a fresh timestamp, inspect the pod (raises on
failure), scan the containers, and only after the scan completes assign
last_check to the timestamp taken at the start. -/
def check_pod (cfg : Config) (st : KState) (o : IterOracle) :
    KState × List Ev × Option Exn :=
  match o.inspectRes with
  | none => (st, [Ev.inspect cfg.podname], some Exn.inspectFailed)
  | some cs =>
    match check_containers o.logsOk st cs with
    | (st2, evs, some e) => (st2, Ev.inspect cfg.podname :: evs, some e)
    | (st2, evs, none) =>
      ({ st2 with lastCheck := o.now }, Ev.inspect cfg.podname :: evs, none)

/-- The reload step at the end of the loop body: if the reloading latch is
set, clear it and forward SIGHUP to the pod. -/
def reloadStep (cfg : Config) (o : IterOracle) (st : KState) : KState × List Ev :=
  if st.reloading then
    ({ st with reloading := false }, signal_pod cfg (o.killOk SIGHUP) SIGHUP)
  else (st, [])

/-- One iteration of the while body of PodKeeper.run after waiter.wait()
returns: clear the waiter, drain the passthrough queue if pending, run the
health check if requested (its exceptions escape immediately), then handle a
pending reload. -/
def runIter (cfg : Config) (st : KState) (o : IterOracle) :
    KState × List Ev × Option Exn :=
  let stw := { st with waiter := false }
  let stp := if stw.passing then { stw with passing := false, queue := [] } else stw
  let evp :=
    if stw.passing then stw.queue.flatMap (fun s => signal_pod cfg (o.killOk s) s) else []
  if stp.checking then
    match check_pod cfg { stp with checking := false } o with
    | (st2, evc, some e) => (st2, evp ++ evc, some e)
    | (st2, evc, none) =>
      let r := reloadStep cfg o st2
      (r.1, evp ++ evc ++ r.2, none)
  else
    let r := reloadStep cfg o stp
    (r.1, evp ++ r.2, none)

/-- How the while loop of PodKeeper.run ended: the stopping latch was
observed set; an exception escaped the loop body; or the supply of wake-ups
ran out with the latch unset (the real process would still be blocked in
waiter.wait(), so nothing further is observed). -/
inductive LoopExit where
  | stopRequested
  | raised (e : Exn)
  | starved
  deriving DecidableEq, Repr

/-- The while loop of PodKeeper.run: test the stopping latch, block on the
waiter, apply the handler invocations that arrive, and run one iteration.
A batch whose handlers leave the waiter unset models an empty delivery: the
loop stays blocked. -/
def runLoop (cfg : Config) : KState → List Batch → KState × List Ev × LoopExit
  | st, [] =>
    if st.stopping then (st, [], LoopExit.stopRequested) else (st, [], LoopExit.starved)
  | st, b :: rest =>
    if st.stopping then (st, [], LoopExit.stopRequested)
    else
      let st1 := applyBatch st b.calls
      if st1.waiter then
        match runIter cfg st1 b.oracle with
        | (st2, evs, some e) => (st2, evs, LoopExit.raised e)
        | (st2, evs, none) =>
          match runLoop cfg st2 rest with
          | (st3, evs2, ex) => (st3, evs ++ evs2, ex)
      else (st1, [], LoopExit.starved)

/-- PodKeeper.stop_pod: first stop with timeout 19, logging failure; second
stop with timeout 5, logging its failure only when the first also failed;
then, when remove is configured, pod removal with its failure logged.  Every
engine call here is wrapped in try/except, so stop_pod never raises. -/
def stop_pod (cfg : Config) (env : RunEnv) : List Ev :=
  [Ev.log LogMsg.stoppingPod, Ev.stopT 19 cfg.podname]
    ++ (if env.stop19Ok then [] else [Ev.log LogMsg.firstStopFailed])
    ++ [Ev.stopT 5 cfg.podname]
    ++ (if env.stop5Ok then []
        else if env.stop19Ok then [] else [Ev.log LogMsg.secondStopFailed])
    ++ (if cfg.remove then
          [Ev.rm cfg.podname] ++ (if env.rmOk then [] else [Ev.log LogMsg.removalFailed])
        else [])

/-- The part of PodKeeper.run before the try block: the replace branch
(existence check, stop, force remove, each fallible and unguarded) followed
by podman play kube (fallible and unguarded). -/
def startPhase (cfg : Config) (env : RunEnv) : List Ev × Option StartExn :=
  let rest := fun (t : List Ev) =>
    let t2 := t ++ [Ev.log LogMsg.startingPod, Ev.playKube cfg.podyaml cfg.podnetArgs]
    if env.playKubeOk then (t2, none) else (t2, some StartExn.playKubeFailed)
  if cfg.replace then
    if env.podExists then
      let t1 := [Ev.existsCheck cfg.podname, Ev.log LogMsg.replacingPod,
                 Ev.stopNoTimeout cfg.podname]
      if env.replaceStopOk then
        let t2 := t1 ++ [Ev.rmForce cfg.podname]
        if env.replaceRmOk then rest t2
        else (t2, some StartExn.replaceRmFailed)
      else (t1, some StartExn.replaceStopFailed)
    else rest [Ev.existsCheck cfg.podname]
  else rest []

/-- Outcome of PodKeeper.run. -/
inductive RunOutcome where
  | startFailed (e : StartExn)
  | stopped
  | raised (e : Exn)
  | starved
  deriving DecidableEq, Repr

/-- PodKeeper.run: the start phase (failures there propagate before the try
block is entered, so no cleanup runs), then the readiness notification, the
event loop, and — through the finally clause — stop_pod on every loop exit,
whether the loop ended normally or by an escaping exception. -/
def run (cfg : Config) (env : RunEnv) (st : KState) (batches : List Batch) :
    List Ev × RunOutcome :=
  match startPhase cfg env with
  | (t, some e) => (t, RunOutcome.startFailed e)
  | (t, none) =>
    let tReady := if env.notifySocket then [Ev.sdnotifyReady] else []
    match runLoop cfg st batches with
    | (_, tLoop, LoopExit.raised e) =>
      (t ++ tReady ++ tLoop ++ stop_pod cfg env, RunOutcome.raised e)
    | (_, tLoop, LoopExit.stopRequested) =>
      let tStop := if env.notifySocket then [Ev.sdnotifyStopping] else []
      (t ++ tReady ++ tLoop ++ tStop ++ stop_pod cfg env, RunOutcome.stopped)
    | (_, tLoop, LoopExit.starved) => (t ++ tReady ++ tLoop, RunOutcome.starved)

/-- The optional podman argument pairs assembled by __init__ (a falsy empty
string omits the pair, as in Python). -/
def podnetArgs (network logDriver logLevel : String) : List String :=
  (if network != "" then [("--network" : String), network] else [])
    ++ (if logDriver != "" then [("--log-driver" : String), logDriver] else [])
    ++ (if logLevel != "" then [("--log-level" : String), logLevel] else [])

/-- The initial latch state built by __init__: all events clear, queue empty,
last_check set to the construction-time clock reading. -/
def initState (now : Int) : KState :=
  { stopping := false, reloading := false, checking := false, waiter := false,
    passing := false, queue := [], lastCheck := now }

/-- PodKeeper.__init__: validate that the identifier is a single path part,
then that the pod home directory and the pod manifest exist, and build the
configuration and initial state.  No engine call occurs here. -/
def init (network logDriver logLevel : String) (replace remove : Bool)
    (identifier : String) (fs : Fs) (now : Int) : Except InitErr (Config × KState) :=
  if (purePathParts identifier).length ≠ 1 then Except.error InitErr.valueError
  else if !fs.podhomeExists then Except.error InitErr.notADirectoryError
  else if !fs.podyamlExists then Except.error InitErr.fileNotFoundError
  else
    Except.ok
      ({ replace := replace, remove := remove,
         podname := identifier ++ "_pod",
         podyaml := ("pod-") ++ identifier ++ (".yaml"),
         podnetArgs := podnetArgs network logDriver logLevel },
       initState now)

/-- Outcome of the whole process (main): construction failure, start failure,
normal termination, an escaping loop exception, or the model artifact of an
exhausted wake-up supply. -/
inductive MOutcome where
  | initFailed (e : InitErr)
  | startFailed (e : StartExn)
  | stopped
  | raised (e : Exn)
  | starved
  deriving DecidableEq, Repr

/-- The main entry point: construct the PodKeeper (any construction error
aborts before any external call, hence the empty trace) and run it. -/
def mainRun (network logDriver logLevel : String) (replace remove : Bool)
    (identifier : String) (fs : Fs) (now : Int) (env : RunEnv)
    (batches : List Batch) : List Ev × MOutcome :=
  match init network logDriver logLevel replace remove identifier fs now with
  | Except.error e => ([], MOutcome.initFailed e)
  | Except.ok (cfg, st) =>
    match run cfg env st batches with
    | (t, RunOutcome.startFailed e) => (t, MOutcome.startFailed e)
    | (t, RunOutcome.stopped) => (t, MOutcome.stopped)
    | (t, RunOutcome.raised e) => (t, MOutcome.raised e)
    | (t, RunOutcome.starved) => (t, MOutcome.starved)

/-- Event classifiers used to state trace properties. -/
def isStop19 : Ev → Bool
  | Ev.stopT 19 _ => true
  | _ => false

def isStop5 : Ev → Bool
  | Ev.stopT 5 _ => true
  | _ => false

def isRmEv : Ev → Bool
  | Ev.rm _ => true
  | _ => false

def isKillEv : Ev → Bool
  | Ev.kill _ _ => true
  | _ => false

def isInspectEv : Ev → Bool
  | Ev.inspect _ => true
  | _ => false

def isLogsEv : Ev → Bool
  | Ev.logs _ _ => true
  | _ => false

/-- An event of the shutdown sequence: a stop with an explicit timeout or a
plain removal (the replace branch uses the distinct untimed stop and forced
removal). -/
def isShutdownEv (e : Ev) : Bool :=
  isStop19 e || isStop5 e || isRmEv e

/-- An engine invocation (as opposed to a log line or a service manager
notification). -/
def isEngineEv : Ev → Bool
  | Ev.log _ => false
  | Ev.sdnotifyReady => false
  | Ev.sdnotifyStopping => false
  | _ => true

/-- Number of events of a class in a trace. -/
def countEv (p : Ev → Bool) (t : List Ev) : Nat := (t.filter p).length

/-- A latch state with nothing pending and an empty queue. -/
def quiescent (st : KState) : Prop :=
  st.stopping = false ∧ st.reloading = false ∧ st.checking = false ∧
    st.passing = false ∧ st.queue = []

/-- The clock readings of a batch list, used to state clock monotonicity. -/
def batchNows (bs : List Batch) : List Int :=
  bs.map (fun b => b.oracle.now)

/-- A concrete configuration for the identifier web, used to evaluate the
theorems on concrete inputs. -/
def cfgEx : Config :=
  { replace := true, remove := true, podname := "web_pod",
    podyaml := "pod-web.yaml", podnetArgs := [] }

/-- A run oracle where every engine call succeeds. -/
def envEx : RunEnv :=
  { podExists := true, replaceStopOk := true, replaceRmOk := true,
    playKubeOk := true, stop19Ok := true, stop5Ok := true, rmOk := true,
    notifySocket := false }

/-- An iteration oracle where every engine call succeeds and the pod has a
single running container. -/
def oracleEx : IterOracle :=
  { killOk := fun _ => true, inspectRes := some [⟨"c1", "running"⟩],
    logsOk := fun _ => true, now := 200 }

/-- An iteration oracle where inspect reports one exited container and the
subsequent podman logs call fails. -/
def oracleLogsFail : IterOracle :=
  { killOk := fun _ => true, inspectRes := some [⟨"c1", "exited"⟩],
    logsOk := fun _ => false, now := 200 }

/-- A filesystem oracle where pod home and manifest both exist. -/
def fsEx : Fs :=
  { podhomeExists := true, podyamlExists := true }

/-- A concrete initial latch state with construction timestamp 100. -/
def stEx : KState := initState 100

/-- C2: in every run of the shutdown sequence the engine calls are exactly
stop with timeout 19, then stop with timeout 5 (issued regardless of the
first outcome), then removal iff it is configured, even when both stops
failed; the second-stop failure is logged exactly when both stop attempts
failed; the removal failure is logged exactly when removal was attempted and
failed (and stop_pod raises nothing, every call being wrapped in
try/except). -/
theorem c2_stop_sequence (cfg : Config) (env : RunEnv) :
    (stop_pod cfg env).filter isEngineEv
        = [Ev.stopT 19 cfg.podname, Ev.stopT 5 cfg.podname]
            ++ (if cfg.remove then [Ev.rm cfg.podname] else []) ∧
    (Ev.log LogMsg.secondStopFailed ∈ stop_pod cfg env
        ↔ env.stop19Ok = false ∧ env.stop5Ok = false) ∧
    (Ev.log LogMsg.removalFailed ∈ stop_pod cfg env
        ↔ cfg.remove = true ∧ env.rmOk = false) := by
  obtain ⟨pe, rso, rro, pko, s19, s5, rok, ns⟩ := env
  obtain ⟨rep, rem, pn, py, pa⟩ := cfg
  cases s19 <;> cases s5 <;> cases rok <;> cases rem <;>
    simp [stop_pod, isEngineEv]

/-- C9: an identifier with more than one path part makes construction fail
with the ValueError, no supervisor is created and no external call is made
(the observable trace is empty). -/
theorem c9_multi_part_identifier_rejected (network logDriver logLevel : String)
    (replace remove : Bool) (identifier : String) (fs : Fs) (now : Int)
    (env : RunEnv) (batches : List Batch)
    (h : 1 < (purePathParts identifier).length) :
    mainRun network logDriver logLevel replace remove identifier fs now env batches
      = ([], MOutcome.initFailed InitErr.valueError) := by
  have hne : (purePathParts identifier).length ≠ 1 := by omega
  unfold mainRun init
  rw [if_pos hne]

/-- C9 witness: the identifier a/b has two path parts and is rejected with
an empty trace. -/
theorem c9_witness :
    1 < (purePathParts ("a/b")).length ∧
      mainRun ("") ("") ("") true true ("a/b") fsEx 0 envEx []
        = ([], MOutcome.initFailed InitErr.valueError) :=
  ⟨by decide,
   c9_multi_part_identifier_rejected ("") ("") ("") true true ("a/b") fsEx 0 envEx []
     (by decide)⟩

/-- C10: construction succeeds only for identifiers with exactly one path
part; in particular the empty identifier parses to zero parts and is
rejected with the same ValueError. -/
theorem c10_single_segment_required (network logDriver logLevel : String)
    (replace remove : Bool) (identifier : String) (fs : Fs) (now : Int) :
    purePathParts ("") = [] ∧
    ((purePathParts identifier).length = 0 →
      init network logDriver logLevel replace remove identifier fs now
        = Except.error InitErr.valueError) ∧
    (∀ p, init network logDriver logLevel replace remove identifier fs now
        = Except.ok p → (purePathParts identifier).length = 1) := by
  refine ⟨by decide, ?_, ?_⟩
  · intro h0
    have hne : (purePathParts identifier).length ≠ 1 := by omega
    unfold init
    rw [if_pos hne]
  · intro p hp
    by_contra hne
    unfold init at hp
    rw [if_pos hne] at hp
    exact Except.noConfusion hp

/-- C10 witness: the empty identifier is rejected with the ValueError. -/
theorem c10_witness :
    init ("") ("") ("") true true ("") fsEx 0 = Except.error InitErr.valueError :=
  (c10_single_segment_required ("") ("") ("") true true ("") fsEx 0).2.1 (by decide)

/-- C6: with replace configured and the pod reported as existing, the engine
calls of the start phase are exactly the existence check, the stop, the
forced removal and only then play kube; with replace off, the only engine
call of the start phase is play kube, whatever the rest of the oracle says. -/
theorem c6_replace_before_start (cfg : Config) (env : RunEnv) :
    (cfg.replace = true → env.podExists = true → env.replaceStopOk = true →
      env.replaceRmOk = true →
      (startPhase cfg env).1.filter isEngineEv
        = [Ev.existsCheck cfg.podname, Ev.stopNoTimeout cfg.podname,
           Ev.rmForce cfg.podname, Ev.playKube cfg.podyaml cfg.podnetArgs]) ∧
    (cfg.replace = false →
      (startPhase cfg env).1.filter isEngineEv
        = [Ev.playKube cfg.podyaml cfg.podnetArgs]) := by
  obtain ⟨pe, rso, rro, pko, s19, s5, rok, ns⟩ := env
  obtain ⟨rep, rem, pn, py, pa⟩ := cfg
  constructor
  · intro h1 h2 h3 h4
    subst h1; subst h2; subst h3; subst h4
    cases pko <;> simp [startPhase, isEngineEv]
  · intro h1
    subst h1
    cases pe <;> cases rso <;> cases rro <;> cases pko <;>
      simp [startPhase, isEngineEv]

/-- C6 witness: on the all-success oracle with replace configured, the start
phase engine calls are the existence check, stop, forced removal, play kube
in that order. -/
theorem c6_witness :
    (startPhase cfgEx envEx).1.filter isEngineEv
      = [Ev.existsCheck ("web_pod"), Ev.stopNoTimeout ("web_pod"),
         Ev.rmForce ("web_pod"), Ev.playKube ("pod-web.yaml") []] :=
  (c6_replace_before_start cfgEx envEx).1 rfl rfl rfl rfl


/-- Counting distributes over trace concatenation. -/
theorem countEv_append (p : Ev → Bool) (a b : List Ev) :
    countEv p (a ++ b) = countEv p a + countEv p b := by
  simp [countEv, List.filter_append]

/-- A trace without shutdown events has no timed stop and no plain removal. -/
theorem shutdown_free_counts {t : List Ev} (h : ∀ e ∈ t, isShutdownEv e = false) :
    countEv isStop19 t = 0 ∧ countEv isStop5 t = 0 ∧ countEv isRmEv t = 0 := by
  refine ⟨?_, ?_, ?_⟩ <;>
    · simp only [countEv, List.length_eq_zero, List.filter_eq_nil_iff]
      intro e he
      have h2 := h e he
      simp only [isShutdownEv, Bool.or_eq_false_iff] at h2
      simp [h2.1.1, h2.1.2, h2.2]

/-- The two caught-kill events of signal_pod are never shutdown events. -/
theorem signal_pod_no_shutdown (cfg : Config) (ok : Bool) (s : Int) :
    ∀ e ∈ signal_pod cfg ok s, isShutdownEv e = false := by
  cases ok <;> simp [signal_pod, isShutdownEv, isStop19, isStop5, isRmEv]

/-- Draining the passthrough queue produces no shutdown events. -/
theorem drain_no_shutdown (cfg : Config) (ko : Int → Bool) (q : List Int) :
    ∀ e ∈ q.flatMap (fun s => signal_pod cfg (ko s) s), isShutdownEv e = false := by
  intro e he
  rcases List.mem_flatMap.mp he with ⟨s, _, he2⟩
  exact signal_pod_no_shutdown cfg (ko s) s e he2

/-- The container scan produces no shutdown events. -/
theorem check_containers_no_shutdown (lo : String → Bool) (cs : List Container) :
    ∀ st : KState, ∀ e ∈ (check_containers lo st cs).2.1, isShutdownEv e = false := by
  induction cs with
  | nil => intro st; simp [check_containers]
  | cons c rest ih =>
    intro st
    by_cases hr : c.state = "running"
    · simpa [check_containers, hr] using ih st
    · by_cases hl : lo c.name
      · rcases h : check_containers lo { st with stopping := true } rest with ⟨st2, evs2, ex⟩
        have h2 := ih { st with stopping := true }
        rw [h] at h2
        simp only at h2
        simp [check_containers, hr, hl, h, isShutdownEv, isStop19, isStop5, isRmEv]
        intro e he
        have h3 := h2 e he
        simp [isShutdownEv, Bool.or_eq_false_iff] at h3
        exact ⟨⟨h3.1.1, h3.1.2⟩, h3.2⟩
      · simp [check_containers, hr, hl, isShutdownEv, isStop19, isStop5, isRmEv]

/-- check_pod produces no shutdown events. -/
theorem check_pod_no_shutdown (cfg : Config) (st : KState) (o : IterOracle) :
    ∀ e ∈ (check_pod cfg st o).2.1, isShutdownEv e = false := by
  unfold check_pod
  cases hins : o.inspectRes with
  | none => simp [isShutdownEv, isStop19, isStop5, isRmEv]
  | some cs =>
    rcases h : check_containers o.logsOk st cs with ⟨st2, evs, ex⟩
    have h2 := check_containers_no_shutdown o.logsOk cs st
    rw [h] at h2
    simp only at h2
    cases ex <;>
      · simp only [h]
        intro e he
        rcases List.mem_cons.mp he with rfl | he2
        · rfl
        · exact h2 e he2

/-- The reload step produces no shutdown events. -/
theorem reloadStep_no_shutdown (cfg : Config) (o : IterOracle) (st : KState) :
    ∀ e ∈ (reloadStep cfg o st).2, isShutdownEv e = false := by
  unfold reloadStep
  split
  · exact signal_pod_no_shutdown cfg _ SIGHUP
  · simp

/-- One loop iteration produces no shutdown events. -/
theorem runIter_no_shutdown (cfg : Config) (st : KState) (o : IterOracle) :
    ∀ e ∈ (runIter cfg st o).2.1, isShutdownEv e = false := by
  obtain ⟨sp, rl, ck, wa, ps, q, lc⟩ := st
  cases ps <;> cases ck <;> simp only [runIter] <;>
    simp only [Bool.false_eq_true, if_false, if_true]
  · exact reloadStep_no_shutdown cfg o _
  · rcases h : check_pod cfg ⟨sp, rl, false, false, false, q, lc⟩ o with ⟨st2, evs, ex⟩
    have h2 := check_pod_no_shutdown cfg ⟨sp, rl, false, false, false, q, lc⟩ o
    rw [h] at h2
    simp only at h2
    cases ex <;> simp only [h]
    · intro e he
      simp only [List.nil_append] at he
      rcases List.mem_append.mp he with he2 | he2
      · exact h2 e he2
      · exact reloadStep_no_shutdown cfg o st2 e he2
    · intro e he
      simp only [List.nil_append] at he
      exact h2 e he
  · intro e he
    rcases List.mem_append.mp he with he2 | he2
    · exact drain_no_shutdown cfg o.killOk q e he2
    · exact reloadStep_no_shutdown cfg o _ e he2
  · rcases h : check_pod cfg ⟨sp, rl, false, false, false, [], lc⟩ o with ⟨st2, evs, ex⟩
    have h2 := check_pod_no_shutdown cfg ⟨sp, rl, false, false, false, [], lc⟩ o
    rw [h] at h2
    simp only at h2
    cases ex <;> simp only [h]
    · intro e he
      rcases List.mem_append.mp he with he2 | he2
      · rcases List.mem_append.mp he2 with he3 | he3
        · exact drain_no_shutdown cfg o.killOk q e he3
        · exact h2 e he3
      · exact reloadStep_no_shutdown cfg o st2 e he2
    · intro e he
      rcases List.mem_append.mp he with he2 | he2
      · exact drain_no_shutdown cfg o.killOk q e he2
      · exact h2 e he2

/-- The whole event loop produces no shutdown events: the two stop attempts
and the removal can only come from stop_pod. -/
theorem runLoop_no_shutdown (cfg : Config) (bs : List Batch) :
    ∀ st : KState, ∀ e ∈ (runLoop cfg st bs).2.1, isShutdownEv e = false := by
  induction bs with
  | nil =>
    intro st
    unfold runLoop
    split <;> simp
  | cons b rest ih =>
    intro st
    unfold runLoop
    split
    · simp
    · dsimp only
      split
      · rcases h : runIter cfg (applyBatch st b.calls) b.oracle with ⟨st2, evs, ex⟩
        have h2 := runIter_no_shutdown cfg (applyBatch st b.calls) b.oracle
        rw [h] at h2
        simp only at h2
        cases ex
        · rcases h3 : runLoop cfg st2 rest with ⟨st3, evs2, ex2⟩
          have h4 := ih st2
          rw [h3] at h4
          simp only at h4
          simp only [h, h3]
          intro e he
          rcases List.mem_append.mp he with he2 | he2
          · exact h2 e he2
          · exact h4 e he2
        · simp only [h]
          exact h2
      · simp

/-- The start phase produces no shutdown events (the replace branch uses the
untimed stop and the forced removal, which are distinct calls). -/
theorem startPhase_no_shutdown (cfg : Config) (env : RunEnv) :
    ∀ e ∈ (startPhase cfg env).1, isShutdownEv e = false := by
  obtain ⟨pe, rso, rro, pko, s19, s5, rok, ns⟩ := env
  obtain ⟨rep, rem, pn, py, pa⟩ := cfg
  cases rep <;> cases pe <;> cases rso <;> cases rro <;> cases pko <;>
    simp [startPhase, isShutdownEv, isStop19, isStop5, isRmEv]

/-- stop_pod always contains exactly one timed stop of each timeout and a
removal exactly when removal is configured. -/
theorem stop_pod_counts (cfg : Config) (env : RunEnv) :
    countEv isStop19 (stop_pod cfg env) = 1 ∧ countEv isStop5 (stop_pod cfg env) = 1 ∧
      countEv isRmEv (stop_pod cfg env) = (if cfg.remove then 1 else 0) := by
  obtain ⟨pe, rso, rro, pko, s19, s5, rok, ns⟩ := env
  obtain ⟨rep, rem, pn, py, pa⟩ := cfg
  cases s19 <;> cases s5 <;> cases rok <;> cases rem <;>
    simp [stop_pod, countEv, isStop19, isStop5, isRmEv]

/-- Counts of notification lists are zero for shutdown classes. -/
theorem notify_counts (b : Bool) (e0 : Ev) (hn : isShutdownEv e0 = false) :
    countEv isStop19 (if b then [e0] else []) = 0 ∧
      countEv isStop5 (if b then [e0] else []) = 0 ∧
      countEv isRmEv (if b then [e0] else []) = 0 := by
  refine shutdown_free_counts ?_
  cases b <;> simp [hn]

/-- run contains the shutdown calls exactly once when the loop exited,
normally or by an exception, and not at all when the start phase failed. -/
theorem run_counts (cfg : Config) (env : RunEnv) (st : KState) (bs : List Batch) :
    (((run cfg env st bs).2 = RunOutcome.stopped ∨
        ∃ e, (run cfg env st bs).2 = RunOutcome.raised e) →
      countEv isStop19 (run cfg env st bs).1 = 1 ∧
        countEv isStop5 (run cfg env st bs).1 = 1 ∧
        countEv isRmEv (run cfg env st bs).1 = (if cfg.remove then 1 else 0)) ∧
    ((∃ e, (run cfg env st bs).2 = RunOutcome.startFailed e) →
      countEv isStop19 (run cfg env st bs).1 = 0 ∧
        countEv isStop5 (run cfg env st bs).1 = 0 ∧
        countEv isRmEv (run cfg env st bs).1 = 0) := by
  rcases hsp : startPhase cfg env with ⟨t, ex⟩
  have hts := startPhase_no_shutdown cfg env
  rw [hsp] at hts
  simp only at hts
  have htz := shutdown_free_counts hts
  have hready := notify_counts env.notifySocket Ev.sdnotifyReady rfl
  have hstopn := notify_counts env.notifySocket Ev.sdnotifyStopping rfl
  cases ex with
  | some e =>
    have hm : run cfg env st bs = (t, RunOutcome.startFailed e) := by
      simp only [run, hsp]
    simp only [hm]
    refine ⟨?_, ?_⟩
    · rintro (h | ⟨e2, h⟩) <;> simp at h
    · intro _
      exact htz
  | none =>
    rcases hloop : runLoop cfg st bs with ⟨st2, tl, lex⟩
    have hls := runLoop_no_shutdown cfg bs st
    rw [hloop] at hls
    simp only at hls
    have hlz := shutdown_free_counts hls
    have hsc := stop_pod_counts cfg env
    cases lex with
    | stopRequested =>
      have hm : run cfg env st bs
          = (t ++ (if env.notifySocket then [Ev.sdnotifyReady] else []) ++ tl
              ++ (if env.notifySocket then [Ev.sdnotifyStopping] else [])
              ++ stop_pod cfg env, RunOutcome.stopped) := by
        simp only [run, hsp, hloop]
      simp only [hm]
      refine ⟨?_, ?_⟩
      · intro _
        refine ⟨?_, ?_, ?_⟩ <;>
          simp [countEv_append, htz.1, htz.2.1, htz.2.2, hlz.1, hlz.2.1, hlz.2.2,
            hready.1, hready.2.1, hready.2.2, hstopn.1, hstopn.2.1, hstopn.2.2,
            hsc.1, hsc.2.1, hsc.2.2]
      · rintro ⟨e, h⟩
        simp at h
    | raised e =>
      have hm : run cfg env st bs
          = (t ++ (if env.notifySocket then [Ev.sdnotifyReady] else []) ++ tl
              ++ stop_pod cfg env, RunOutcome.raised e) := by
        simp only [run, hsp, hloop]
      simp only [hm]
      refine ⟨?_, ?_⟩
      · intro _
        refine ⟨?_, ?_, ?_⟩ <;>
          simp [countEv_append, htz.1, htz.2.1, htz.2.2, hlz.1, hlz.2.1, hlz.2.2,
            hready.1, hready.2.1, hready.2.2, hsc.1, hsc.2.1, hsc.2.2]
      · rintro ⟨e2, h⟩
        simp at h
    | starved =>
      have hm : run cfg env st bs
          = (t ++ (if env.notifySocket then [Ev.sdnotifyReady] else []) ++ tl,
             RunOutcome.starved) := by
        simp only [run, hsp, hloop]
      simp only [hm]
      refine ⟨?_, ?_⟩
      · rintro (h | ⟨e2, h⟩) <;> simp at h
      · rintro ⟨e2, h⟩
        simp at h

/-- Inversion of a successful construction. -/
theorem init_ok_inv (network logDriver logLevel : String) (replace remove : Bool)
    (identifier : String) (fs : Fs) (now : Int) (cfg : Config) (st : KState)
    (h : init network logDriver logLevel replace remove identifier fs now
        = Except.ok (cfg, st)) :
    cfg = { replace := replace, remove := remove,
            podname := identifier ++ "_pod",
            podyaml := ("pod-") ++ identifier ++ (".yaml"),
            podnetArgs := podnetArgs network logDriver logLevel } ∧
      st = initState now := by
  unfold init at h
  split at h
  · exact absurd h (by simp)
  · split at h
    · exact absurd h (by simp)
    · split at h
      · exact absurd h (by simp)
      · simp only [Except.ok.injEq, Prod.mk.injEq] at h
        exact ⟨h.1.symm, h.2.symm⟩

/-- C1: whenever the process exits after the pod start succeeded — the loop
ended with a normal stop request (covering both operator stop and
health-check-triggered stop) or with an exception escaping the loop body —
the trace contains exactly one stop with timeout 19, one stop with timeout 5
and, exactly when removal is configured, one removal; when construction or
the start phase itself failed, none of these shutdown calls occur. -/
theorem c1_shutdown_exactly_once (network logDriver logLevel : String)
    (replace remove : Bool) (identifier : String) (fs : Fs) (now : Int)
    (env : RunEnv) (batches : List Batch) :
    (((mainRun network logDriver logLevel replace remove identifier fs now env
          batches).2 = MOutcome.stopped ∨
        ∃ e, (mainRun network logDriver logLevel replace remove identifier fs now env
          batches).2 = MOutcome.raised e) →
      countEv isStop19 (mainRun network logDriver logLevel replace remove identifier
          fs now env batches).1 = 1 ∧
        countEv isStop5 (mainRun network logDriver logLevel replace remove identifier
          fs now env batches).1 = 1 ∧
        countEv isRmEv (mainRun network logDriver logLevel replace remove identifier
          fs now env batches).1 = (if remove then 1 else 0)) ∧
    (((∃ e, (mainRun network logDriver logLevel replace remove identifier fs now env
          batches).2 = MOutcome.initFailed e) ∨
        ∃ e, (mainRun network logDriver logLevel replace remove identifier fs now env
          batches).2 = MOutcome.startFailed e) →
      countEv isStop19 (mainRun network logDriver logLevel replace remove identifier
          fs now env batches).1 = 0 ∧
        countEv isStop5 (mainRun network logDriver logLevel replace remove identifier
          fs now env batches).1 = 0 ∧
        countEv isRmEv (mainRun network logDriver logLevel replace remove identifier
          fs now env batches).1 = 0) := by
  cases hinit : init network logDriver logLevel replace remove identifier fs now with
  | error e =>
    have hm : mainRun network logDriver logLevel replace remove identifier fs now env
        batches = ([], MOutcome.initFailed e) := by
      simp only [mainRun, hinit]
    simp only [hm]
    refine ⟨?_, ?_⟩
    · rintro (h | ⟨e2, h⟩) <;> simp at h
    · intro _
      simp [countEv]
  | ok p =>
    obtain ⟨cfg, st⟩ := p
    obtain ⟨hcfg, hst⟩ :=
      init_ok_inv network logDriver logLevel replace remove identifier fs now cfg st hinit
    rcases hrun : run cfg env st batches with ⟨t, oc⟩
    cases oc with
    | startFailed e =>
      have hm : mainRun network logDriver logLevel replace remove identifier fs now env
          batches = (t, MOutcome.startFailed e) := by
        simp only [mainRun, hinit, hrun]
      have hrc := (run_counts cfg env st batches).2 ⟨e, by rw [hrun]⟩
      rw [hrun] at hrc
      simp only [hm]
      refine ⟨?_, ?_⟩
      · rintro (h | ⟨e2, h⟩) <;> simp at h
      · intro _
        exact hrc
    | stopped =>
      have hm : mainRun network logDriver logLevel replace remove identifier fs now env
          batches = (t, MOutcome.stopped) := by
        simp only [mainRun, hinit, hrun]
      have hrc := (run_counts cfg env st batches).1 (Or.inl (by rw [hrun]))
      rw [hrun, hcfg] at hrc
      simp only [hm]
      refine ⟨?_, ?_⟩
      · intro _
        exact hrc
      · rintro (⟨e2, h⟩ | ⟨e2, h⟩) <;> simp at h
    | raised e =>
      have hm : mainRun network logDriver logLevel replace remove identifier fs now env
          batches = (t, MOutcome.raised e) := by
        simp only [mainRun, hinit, hrun]
      have hrc := (run_counts cfg env st batches).1 (Or.inr ⟨e, by rw [hrun]⟩)
      rw [hrun, hcfg] at hrc
      simp only [hm]
      refine ⟨?_, ?_⟩
      · intro _
        exact hrc
      · rintro (⟨e2, h⟩ | ⟨e2, h⟩) <;> simp at h
    | starved =>
      have hm : mainRun network logDriver logLevel replace remove identifier fs now env
          batches = (t, MOutcome.starved) := by
        simp only [mainRun, hinit, hrun]
      simp only [hm]
      refine ⟨?_, ?_⟩
      · rintro (h | ⟨e2, h⟩) <;> simp at h
      · rintro (⟨e2, h⟩ | ⟨e2, h⟩) <;> simp at h

/-- C1 witness: for the identifier web with an all-success oracle and a
single terminate signal, the run stops normally and the shutdown trace counts
are exactly one stop of each timeout and one removal. -/
theorem c1_witness :
    countEv isStop19 (mainRun ("") ("") ("") true true ("web") fsEx 0 envEx
        [⟨[HandlerCall.destroy SIGTERM], oracleEx⟩]).1 = 1 ∧
      countEv isStop5 (mainRun ("") ("") ("") true true ("web") fsEx 0 envEx
        [⟨[HandlerCall.destroy SIGTERM], oracleEx⟩]).1 = 1 ∧
      countEv isRmEv (mainRun ("") ("") ("") true true ("web") fsEx 0 envEx
        [⟨[HandlerCall.destroy SIGTERM], oracleEx⟩]).1 = 1 :=
  (c1_shutdown_exactly_once ("") ("") ("") true true ("web") fsEx 0 envEx
      [⟨[HandlerCall.destroy SIGTERM], oracleEx⟩]).1 (Or.inl (by decide))

/-- The kill events of signal_pod: exactly one, for the given signal. -/
theorem signal_pod_filter_kill (cfg : Config) (ok : Bool) (s : Int) :
    (signal_pod cfg ok s).filter isKillEv = [Ev.kill s cfg.podname] := by
  cases ok <;> rfl

/-- Draining the queue forwards exactly one kill per queued signal, in queue
order. -/
theorem drain_filter_kill (cfg : Config) (ko : Int → Bool) (q : List Int) :
    ((q.flatMap fun s => signal_pod cfg (ko s) s).filter isKillEv)
      = q.map fun s => Ev.kill s cfg.podname := by
  induction q with
  | nil => rfl
  | cons a q ih =>
    simp [List.flatMap_cons, List.filter_append, ih, signal_pod_filter_kill]

/-- Applying a nonempty burst of passthrough handler invocations appends the
signal numbers to the queue in delivery order and raises the passing latch
and the waiter. -/
theorem applyBatch_passthrough (sigs : List Int) :
    ∀ st : KState, sigs ≠ [] →
      applyBatch st (sigs.map HandlerCall.passthrough)
        = { st with queue := st.queue ++ sigs, passing := true, waiter := true } := by
  induction sigs with
  | nil => intro st h; exact absurd rfl h
  | cons s rest ih =>
    intro st _
    cases rest with
    | nil => rfl
    | cons s2 rest2 =>
      have h2 := ih { st with queue := st.queue ++ [s], passing := true, waiter := true }
        (by simp)
      simp only [List.map_cons, applyBatch, List.foldl_cons, applyHandler] at h2 ⊢
      rw [h2]
      simp

/-- Repeated handler invocations that only set latches already set leave the
state unchanged. -/
theorem applyBatch_reload_already (m : Nat) (s : Int) :
    ∀ st : KState, st.reloading = true → st.waiter = true →
      applyBatch st (List.replicate m (HandlerCall.reload s)) = st := by
  induction m with
  | zero => intro st _ _; rfl
  | succ k ih =>
    intro st h1 h2
    obtain ⟨sp, rl, ck, wa, ps, q, lc⟩ := st
    simp only at h1 h2
    subst h1; subst h2
    simp only [List.replicate_succ, applyBatch, List.foldl_cons, applyHandler]
    exact ih _ rfl rfl

/-- Any positive number of reload requests between two consumptions leaves
exactly the reloading latch (and the waiter) set. -/
theorem applyBatch_reload (k : Nat) (s : Int) (st : KState) :
    applyBatch st (List.replicate (k + 1) (HandlerCall.reload s))
      = { st with reloading := true, waiter := true } := by
  simp only [List.replicate_succ, applyBatch, List.foldl_cons, applyHandler]
  exact applyBatch_reload_already k s _ rfl rfl

/-- Check variant of applyBatch_reload_already. -/
theorem applyBatch_check_already (m : Nat) (s : Int) :
    ∀ st : KState, st.checking = true → st.waiter = true →
      applyBatch st (List.replicate m (HandlerCall.check s)) = st := by
  induction m with
  | zero => intro st _ _; rfl
  | succ k ih =>
    intro st h1 h2
    obtain ⟨sp, rl, ck, wa, ps, q, lc⟩ := st
    simp only at h1 h2
    subst h1; subst h2
    simp only [List.replicate_succ, applyBatch, List.foldl_cons, applyHandler]
    exact ih _ rfl rfl

/-- Any positive number of check requests between two consumptions leaves
exactly the checking latch (and the waiter) set. -/
theorem applyBatch_check (k : Nat) (s : Int) (st : KState) :
    applyBatch st (List.replicate (k + 1) (HandlerCall.check s))
      = { st with checking := true, waiter := true } := by
  simp only [List.replicate_succ, applyBatch, List.foldl_cons, applyHandler]
  exact applyBatch_check_already k s _ rfl rfl

/-- C4: passthrough signals delivered before the loop next wakes are each
forwarded exactly once, in delivery order: starting from a quiescent state,
after a burst of passthrough deliveries the next iteration issues exactly one
kill per delivered signal, in FIFO order, empties the queue and raises no
exception. -/
theorem c4_passthrough_fifo (cfg : Config) (o : IterOracle) (st : KState)
    (sigs : List Int) (hq : quiescent st) :
    ((runIter cfg (applyBatch st (sigs.map HandlerCall.passthrough)) o).2.1).filter
        isKillEv = sigs.map (fun s => Ev.kill s cfg.podname) ∧
      (runIter cfg (applyBatch st (sigs.map HandlerCall.passthrough)) o).1.queue = [] ∧
      (runIter cfg (applyBatch st (sigs.map HandlerCall.passthrough)) o).2.2 = none := by
  obtain ⟨h1, h2, h3, h4, h5⟩ := hq
  obtain ⟨sp, rl, ck, wa, ps, q, lc⟩ := st
  simp only at h1 h2 h3 h4 h5
  subst h1; subst h2; subst h3; subst h4; subst h5
  cases sigs with
  | nil =>
    simp [applyBatch, runIter, reloadStep]
  | cons s rest =>
    rw [applyBatch_passthrough (s :: rest) _ (by simp)]
    simp only [runIter, reloadStep]
    simp [drain_filter_kill, signal_pod_filter_kill]

/-- C4 witness: SIGUSR1, SIGUSR2, SIGINT delivered in that order produce
exactly the three kill forwards in that order. -/
theorem c4_witness :
    ((runIter cfgEx (applyBatch stEx
          ([SIGUSR1, SIGUSR2, SIGINT].map HandlerCall.passthrough)) oracleEx).2.1).filter
        isKillEv
      = [Ev.kill SIGUSR1 ("web_pod"), Ev.kill SIGUSR2 ("web_pod"),
         Ev.kill SIGINT ("web_pod")] :=
  (c4_passthrough_fifo cfgEx oracleEx stEx [SIGUSR1, SIGUSR2, SIGINT]
      ⟨rfl, rfl, rfl, rfl, rfl⟩).1


/-- The container scan performs no inspect call of its own. -/
theorem check_containers_no_inspect (lo : String → Bool) (cs : List Container) :
    ∀ st : KState, ∀ e ∈ (check_containers lo st cs).2.1, isInspectEv e = false := by
  induction cs with
  | nil => intro st; simp [check_containers]
  | cons c rest ih =>
    intro st
    by_cases hr : c.state = "running"
    · simpa [check_containers, hr] using ih st
    · by_cases hl : lo c.name
      · rcases h : check_containers lo { st with stopping := true } rest with ⟨st2, evs2, ex⟩
        have h2 := ih { st with stopping := true }
        rw [h] at h2
        simp only at h2
        simp [check_containers, hr, hl, h, isInspectEv]
        intro e he
        simpa using h2 e he
      · simp [check_containers, hr, hl, isInspectEv]

/-- check_pod performs exactly one inspect call. -/
theorem check_pod_inspect_count (cfg : Config) (st : KState) (o : IterOracle) :
    countEv isInspectEv (check_pod cfg st o).2.1 = 1 := by
  unfold check_pod
  cases hins : o.inspectRes with
  | none => rfl
  | some cs =>
    rcases h : check_containers o.logsOk st cs with ⟨st2, evs, ex⟩
    have h2 := check_containers_no_inspect o.logsOk cs st
    rw [h] at h2
    simp only at h2
    have hz : evs.filter isInspectEv = [] :=
      List.filter_eq_nil_iff.mpr (fun e he => by simp [h2 e he])
    cases ex <;>
      simp [h, countEv, List.filter, hz, isInspectEv]

/-- The reload step performs no inspect call. -/
theorem reloadStep_no_inspect (cfg : Config) (o : IterOracle) (st : KState) :
    (reloadStep cfg o st).2.filter isInspectEv = [] := by
  unfold reloadStep
  split
  · cases o.killOk SIGHUP <;> rfl
  · rfl

/-- signal_pod performs no inspect call. -/
theorem signal_pod_no_inspect (cfg : Config) (ok : Bool) (s : Int) :
    (signal_pod cfg ok s).filter isInspectEv = [] := by
  cases ok <;> rfl

/-- Draining the passthrough queue performs no inspect call. -/
theorem drain_no_inspect (cfg : Config) (ko : Int → Bool) (q : List Int) :
    ((q.flatMap fun s => signal_pod cfg (ko s) s).filter isInspectEv) = [] := by
  induction q with
  | nil => rfl
  | cons a q ih =>
    simp [List.flatMap_cons, List.filter_append, ih, signal_pod_no_inspect]

/-- An iteration whose checking latch is set performs exactly one inspect
call, whatever else is pending and however the check ends. -/
theorem runIter_inspect_count (cfg : Config) (st : KState) (o : IterOracle)
    (hck : st.checking = true) :
    countEv isInspectEv (runIter cfg st o).2.1 = 1 := by
  obtain ⟨sp, rl, ck, wa, ps, q, lc⟩ := st
  simp only at hck
  subst hck
  cases ps <;> simp only [runIter] <;>
    simp only [Bool.false_eq_true, if_false, if_true]
  · rcases h : check_pod cfg ⟨sp, rl, false, false, false, q, lc⟩ o with ⟨st2, evs, ex⟩
    have hc := check_pod_inspect_count cfg ⟨sp, rl, false, false, false, q, lc⟩ o
    rw [h] at hc
    simp only at hc
    have hr := reloadStep_no_inspect cfg o st2
    cases ex <;> simp only [h]
    · simp only [countEv, List.filter_append, List.nil_append, List.length_append] at hc ⊢
      simp [hc, hr]
    · simpa [countEv] using hc
  · rcases h : check_pod cfg ⟨sp, rl, false, false, false, [], lc⟩ o with ⟨st2, evs, ex⟩
    have hc := check_pod_inspect_count cfg ⟨sp, rl, false, false, false, [], lc⟩ o
    rw [h] at hc
    simp only at hc
    have hr := reloadStep_no_inspect cfg o st2
    have hd := drain_no_inspect cfg o.killOk q
    cases ex <;> simp only [h]
    · simp only [countEv, List.filter_append, List.length_append] at hc ⊢
      simp [hc, hr, hd]
    · simp only [countEv, List.filter_append, List.length_append] at hc ⊢
      simp [hc, hd]

/-- C5: reload requests and check requests are binary latches: any positive
number of reload requests delivered before the next wake-up produces exactly
one hangup forward to the pod, and any positive number of check requests
produces exactly one inspect call. -/
theorem c5_latch_coalescing (cfg : Config) (o : IterOracle) (st : KState)
    (n m : Nat) (hq : quiescent st) (hn : 1 ≤ n) (hm : 1 ≤ m) :
    ((runIter cfg (applyBatch st (List.replicate n (HandlerCall.reload SIGHUP))) o).2.1).filter
        isKillEv = [Ev.kill SIGHUP cfg.podname] ∧
      countEv isInspectEv
        (runIter cfg (applyBatch st (List.replicate m (HandlerCall.check SIGALRM))) o).2.1
        = 1 := by
  obtain ⟨h1, h2, h3, h4, h5⟩ := hq
  obtain ⟨sp, rl, ck, wa, ps, q, lc⟩ := st
  simp only at h1 h2 h3 h4 h5
  subst h1; subst h2; subst h3; subst h4; subst h5
  obtain ⟨n2, rfl⟩ : ∃ n2, n = n2 + 1 := ⟨n - 1, by omega⟩
  obtain ⟨m2, rfl⟩ : ∃ m2, m = m2 + 1 := ⟨m - 1, by omega⟩
  rw [applyBatch_reload n2 SIGHUP, applyBatch_check m2 SIGALRM]
  constructor
  · simp only [runIter, reloadStep]
    simp [signal_pod_filter_kill]
  · exact runIter_inspect_count cfg _ o rfl

/-- C5 witness: five reload requests produce exactly one hangup forward and
five check requests produce exactly one inspect call. -/
theorem c5_witness :
    ((runIter cfgEx (applyBatch stEx
          (List.replicate 5 (HandlerCall.reload SIGHUP))) oracleEx).2.1).filter isKillEv
        = [Ev.kill SIGHUP ("web_pod")] ∧
      countEv isInspectEv
        (runIter cfgEx (applyBatch stEx
          (List.replicate 5 (HandlerCall.check SIGALRM))) oracleEx).2.1 = 1 :=
  c5_latch_coalescing cfgEx oracleEx stEx 5 5 ⟨rfl, rfl, rfl, rfl, rfl⟩
    (by omega) (by omega)

/-- C7: a failing kill during the reload action is logged, does not set the
stopping latch and raises nothing, and the same holds for a failing
passthrough forward; the loop then simply continues with the remaining
wake-ups. -/
theorem c7_kill_failure_nonfatal (cfg : Config) (o : IterOracle) (st : KState)
    (s : Int) (hq : quiescent st) (hhup : o.killOk SIGHUP = false)
    (hs : o.killOk s = false) :
    ((runIter cfg (applyBatch st [HandlerCall.reload SIGHUP]) o).2.2 = none ∧
      (runIter cfg (applyBatch st [HandlerCall.reload SIGHUP]) o).1.stopping = false ∧
      Ev.log LogMsg.errorSignalingPod
        ∈ (runIter cfg (applyBatch st [HandlerCall.reload SIGHUP]) o).2.1) ∧
    ((runIter cfg (applyBatch st [HandlerCall.passthrough s]) o).2.2 = none ∧
      (runIter cfg (applyBatch st [HandlerCall.passthrough s]) o).1.stopping = false ∧
      Ev.log LogMsg.errorSignalingPod
        ∈ (runIter cfg (applyBatch st [HandlerCall.passthrough s]) o).2.1) ∧
    (∀ rest : List Batch,
      (runLoop cfg st (⟨[HandlerCall.reload SIGHUP], o⟩ :: rest)).2.2
        = (runLoop cfg (runIter cfg (applyBatch st [HandlerCall.reload SIGHUP]) o).1
            rest).2.2) := by
  obtain ⟨h1, h2, h3, h4, h5⟩ := hq
  obtain ⟨sp, rl, ck, wa, ps, q, lc⟩ := st
  simp only at h1 h2 h3 h4 h5
  subst h1; subst h2; subst h3; subst h4; subst h5
  refine ⟨?_, ?_, ?_⟩
  · simp [applyBatch, applyHandler, runIter, reloadStep, signal_pod, hhup]
  · simp [applyBatch, applyHandler, runIter, reloadStep, signal_pod, hs]
  · intro rest
    simp only [applyBatch, List.foldl_cons, List.foldl_nil, applyHandler]
    have hex : (runIter cfg ⟨false, true, false, true, false, [], lc⟩ o).2.2 = none := by
      simp [runIter, reloadStep]
    rcases h : runIter cfg ⟨false, true, false, true, false, [], lc⟩ o with ⟨st2, evs, ex⟩
    rw [h] at hex
    simp only at hex
    subst hex
    rcases h2 : runLoop cfg st2 rest with ⟨st3, evs2, ex2⟩
    unfold runLoop
    simp [applyBatch, applyHandler, h, h2]

/-- C7 witness: with every kill failing, a reload iteration raises nothing,
leaves the stopping latch unset and logs the signaling error. -/
theorem c7_witness :
    (runIter cfgEx (applyBatch stEx [HandlerCall.reload SIGHUP])
        { killOk := fun _ => false, inspectRes := some [⟨"c1", "running"⟩],
          logsOk := fun _ => true, now := 200 }).2.2 = none ∧
      (runIter cfgEx (applyBatch stEx [HandlerCall.reload SIGHUP])
        { killOk := fun _ => false, inspectRes := some [⟨"c1", "running"⟩],
          logsOk := fun _ => true, now := 200 }).1.stopping = false ∧
      Ev.log LogMsg.errorSignalingPod
        ∈ (runIter cfgEx (applyBatch stEx [HandlerCall.reload SIGHUP])
            { killOk := fun _ => false, inspectRes := some [⟨"c1", "running"⟩],
              logsOk := fun _ => true, now := 200 }).2.1 :=
  (c7_kill_failure_nonfatal cfgEx
      { killOk := fun _ => false, inspectRes := some [⟨"c1", "running"⟩],
        logsOk := fun _ => true, now := 200 }
      stEx SIGUSR1 ⟨rfl, rfl, rfl, rfl, rfl⟩ rfl rfl).1

/-- Characterization of the container scan when every log retrieval
succeeds: no exception, the stopping latch is ORed with the presence of a
non-running container, the timestamp is untouched, and one logs-since call is
made per non-running container with the lower bound last_check - 10. -/
theorem check_containers_ok (lo : String → Bool) (cs : List Container) :
    ∀ st : KState, (∀ c ∈ cs, lo c.name = true) →
      (check_containers lo st cs).2.2 = none ∧
      (check_containers lo st cs).1.stopping
          = (st.stopping || cs.any fun c => c.state != "running") ∧
      (check_containers lo st cs).1.lastCheck = st.lastCheck ∧
      ((check_containers lo st cs).2.1).filter isLogsEv
          = (cs.filter fun c => c.state != "running").map
              (fun c => Ev.logs (st.lastCheck - 10) c.name) := by
  induction cs with
  | nil => intro st _; simp [check_containers]
  | cons c rest ih =>
    intro st hl
    by_cases hr : c.state = "running"
    · have ihr := ih st (fun c2 hc2 => hl c2 (List.mem_cons_of_mem c hc2))
      simp [check_containers, hr, ihr.1, ihr.2.1, ihr.2.2.1, ihr.2.2.2]
    · have hlc := hl c (List.mem_cons_self c rest)
      rcases h : check_containers lo { st with stopping := true } rest with ⟨st2, evs2, ex⟩
      have ihr := ih { st with stopping := true }
        (fun c2 hc2 => hl c2 (List.mem_cons_of_mem c hc2))
      rw [h] at ihr
      simp only at ihr
      obtain ⟨he, hs2, hlc2, hf⟩ := ihr
      simp [check_containers, hr, hlc, h, he, hs2, hlc2, hf, List.filter_append, isLogsEv]

/-- C3 counterexample: inspect succeeds and reports container c1 exited, but
the podman logs call for c1 fails; check_pod then leaves the stopping latch
unset and the timestamp unchanged (the exception escapes instead), so the
claim as stated does not hold on this execution. -/
theorem c3_counterexample :
    oracleLogsFail.inspectRes = some [⟨"c1", "exited"⟩] ∧
      ("exited" : String) ≠ "running" ∧
      (check_pod cfgEx stEx oracleLogsFail).1.stopping = false ∧
      stEx.lastCheck = 100 ∧
      oracleLogsFail.now = 200 ∧
      (check_pod cfgEx stEx oracleLogsFail).1.lastCheck = 100 ∧
      (check_pod cfgEx stEx oracleLogsFail).2.2 = some (Exn.logsFailed ("c1")) := by
  refine ⟨rfl, by decide, ?_, rfl, rfl, ?_, ?_⟩ <;> rfl

/-- C3 (amended): for a health check whose inspect succeeds and whose log
retrievals succeed, no exception escapes, last_check advances to the
timestamp taken at the start of the check, the stopping latch is set exactly
when some container is not running (a single latch, however many containers
failed), and one logs-since call with lower bound last_check - 10 is made per
non-running container.  The amendment restricts the non-running branch of the
claim to executions where the log retrievals succeed: when one fails, the
exception escapes before the latch is set and before the timestamp advances,
as c3_counterexample shows. -/
theorem c3_health_check_amended (cfg : Config) (st : KState) (o : IterOracle)
    (cs : List Container) (hin : o.inspectRes = some cs)
    (hlogs : ∀ c ∈ cs, o.logsOk c.name = true) :
    (check_pod cfg st o).2.2 = none ∧
      (check_pod cfg st o).1.lastCheck = o.now ∧
      (check_pod cfg st o).1.stopping
          = (st.stopping || cs.any fun c => c.state != "running") ∧
      ((check_pod cfg st o).2.1).filter isLogsEv
          = (cs.filter fun c => c.state != "running").map
              (fun c => Ev.logs (st.lastCheck - 10) c.name) := by
  obtain ⟨he, hs2, hlc2, hf⟩ := check_containers_ok o.logsOk cs st hlogs
  rcases h : check_containers o.logsOk st cs with ⟨st2, evs, ex⟩
  rw [h] at he hs2 hlc2 hf
  simp only at he hs2 hlc2 hf
  subst he
  unfold check_pod
  rw [hin]
  simp [h, hs2, hlc2, hf, isLogsEv]

/-- C3 witness (amended claim): a check that finds the single container
running raises nothing, advances last_check from 100 to 200 and leaves the
stopping latch unset. -/
theorem c3_witness :
    (check_pod cfgEx stEx oracleEx).2.2 = none ∧
      (check_pod cfgEx stEx oracleEx).1.lastCheck = 200 ∧
      (check_pod cfgEx stEx oracleEx).1.stopping = false ∧
      ((check_pod cfgEx stEx oracleEx).2.1).filter isLogsEv = [] :=
  c3_health_check_amended cfgEx stEx oracleEx [⟨"c1", "running"⟩] rfl
    (fun _ _ => rfl)

/-- Handler invocations never touch last_check. -/
theorem applyBatch_lastCheck (calls : List HandlerCall) :
    ∀ st : KState, (applyBatch st calls).lastCheck = st.lastCheck := by
  induction calls with
  | nil => intro st; rfl
  | cons c cs ih =>
    intro st
    simp only [applyBatch, List.foldl_cons]
    have h2 := ih (applyHandler st c)
    simp only [applyBatch] at h2
    rw [h2]
    cases c <;> rfl

/-- The container scan never touches last_check. -/
theorem check_containers_lastCheck (lo : String → Bool) (cs : List Container) :
    ∀ st : KState, (check_containers lo st cs).1.lastCheck = st.lastCheck := by
  induction cs with
  | nil => intro st; rfl
  | cons c rest ih =>
    intro st
    by_cases hr : c.state = "running"
    · simpa [check_containers, hr] using ih st
    · by_cases hl : lo c.name
      · rcases h : check_containers lo { st with stopping := true } rest with ⟨st2, evs2, ex⟩
        have h2 := ih { st with stopping := true }
        rw [h] at h2
        simp only at h2
        simp [check_containers, hr, hl, h, h2]
      · simp [check_containers, hr, hl]

/-- check_pod either completes (no exception) and assigns last_check to the
timestamp taken at its start, or raises and leaves last_check untouched. -/
theorem check_pod_lastCheck (cfg : Config) (st : KState) (o : IterOracle) :
    ((check_pod cfg st o).2.2 = none ∧ (check_pod cfg st o).1.lastCheck = o.now) ∨
      ((check_pod cfg st o).2.2 ≠ none ∧
        (check_pod cfg st o).1.lastCheck = st.lastCheck) := by
  unfold check_pod
  cases hins : o.inspectRes with
  | none => right; simp
  | some cs =>
    rcases h : check_containers o.logsOk st cs with ⟨st2, evs, ex⟩
    have h2 := check_containers_lastCheck o.logsOk cs st
    rw [h] at h2
    simp only at h2
    cases ex with
    | none => left; simp [h]
    | some e => right; simp [h, h2]

/-- The reload step never touches last_check. -/
theorem reloadStep_lastCheck (cfg : Config) (o : IterOracle) (st : KState) :
    (reloadStep cfg o st).1.lastCheck = st.lastCheck := by
  unfold reloadStep
  split <;> rfl

/-- One iteration either leaves last_check unchanged, or the checking latch
was set, the health check completed without exception, and last_check became
the clock reading taken at the start of that check. -/
theorem runIter_lastCheck (cfg : Config) (st : KState) (o : IterOracle) :
    (runIter cfg st o).1.lastCheck = st.lastCheck ∨
      (st.checking = true ∧ (runIter cfg st o).2.2 = none ∧
        (runIter cfg st o).1.lastCheck = o.now) := by
  obtain ⟨sp, rl, ck, wa, ps, q, lc⟩ := st
  cases ps <;> cases ck <;> simp only [runIter] <;>
    simp only [Bool.false_eq_true, if_false, if_true]
  · left
    exact reloadStep_lastCheck cfg o _
  · rcases h : check_pod cfg ⟨sp, rl, false, false, false, q, lc⟩ o with ⟨st2, evs, ex⟩
    have h2 := check_pod_lastCheck cfg ⟨sp, rl, false, false, false, q, lc⟩ o
    rw [h] at h2
    simp only at h2
    cases ex with
    | none =>
      rcases h2 with ⟨_, hlc⟩ | ⟨hne, _⟩
      · right
        refine ⟨trivial, ?_, ?_⟩ <;> simp [h, reloadStep_lastCheck, hlc]
      · exact absurd rfl hne
    | some e =>
      rcases h2 with ⟨he, _⟩ | ⟨_, hlc⟩
      · exact absurd he (by simp)
      · left
        simp [h, hlc]
  · left
    exact reloadStep_lastCheck cfg o _
  · rcases h : check_pod cfg ⟨sp, rl, false, false, false, [], lc⟩ o with ⟨st2, evs, ex⟩
    have h2 := check_pod_lastCheck cfg ⟨sp, rl, false, false, false, [], lc⟩ o
    rw [h] at h2
    simp only at h2
    cases ex with
    | none =>
      rcases h2 with ⟨_, hlc⟩ | ⟨hne, _⟩
      · right
        refine ⟨trivial, ?_, ?_⟩ <;> simp [h, reloadStep_lastCheck, hlc]
      · exact absurd rfl hne
    | some e =>
      rcases h2 with ⟨he, _⟩ | ⟨_, hlc⟩
      · exact absurd he (by simp)
      · left
        simp [h, hlc]

/-- Prepending a smaller head preserves a nondecreasing chain. -/
theorem chain_le_head {a b : Int} {l : List Int} (hab : a ≤ b)
    (h : List.Chain' (· ≤ ·) (b :: l)) : List.Chain' (· ≤ ·) (a :: l) := by
  cases l with
  | nil => simp
  | cons c l2 =>
    rw [List.chain'_cons] at h ⊢
    exact ⟨le_trans hab h.1, h.2⟩

/-- Over any run of the loop whose clock readings are nondecreasing (and not
earlier than the current last_check), last_check never decreases. -/
theorem runLoop_lastCheck_mono (cfg : Config) (bs : List Batch) :
    ∀ st : KState, List.Chain' (· ≤ ·) (st.lastCheck :: batchNows bs) →
      st.lastCheck ≤ (runLoop cfg st bs).1.lastCheck := by
  induction bs with
  | nil =>
    intro st _
    unfold runLoop
    split <;> simp
  | cons b rest ih =>
    intro st hch
    have hnows : batchNows (b :: rest) = b.oracle.now :: batchNows rest := rfl
    rw [hnows, List.chain'_cons] at hch
    obtain ⟨hle, hch2⟩ := hch
    unfold runLoop
    split
    · simp
    · dsimp only
      split
      · rcases h : runIter cfg (applyBatch st b.calls) b.oracle with ⟨st2, evs, ex⟩
        have hab := applyBatch_lastCheck b.calls st
        have hri := runIter_lastCheck cfg (applyBatch st b.calls) b.oracle
        rw [h] at hri
        simp only at hri
        have hst2 : st.lastCheck ≤ st2.lastCheck ∧ st2.lastCheck ≤ b.oracle.now := by
          rcases hri with hri | ⟨_, _, hri⟩
          · rw [hri, hab]
            exact ⟨le_refl _, hle⟩
          · rw [hri]
            exact ⟨hle, le_refl _⟩
        cases ex with
        | some e =>
          simp only [h]
          exact hst2.1
        | none =>
          rcases h2 : runLoop cfg st2 rest with ⟨st3, evs2, ex2⟩
          have hrec := ih st2 (chain_le_head hst2.2 hch2)
          rw [h2] at hrec
          simp only at hrec
          simp only [h, h2]
          exact le_trans hst2.1 hrec
      · simp [applyBatch_lastCheck]

/-- C8: last_check is set at construction to the construction-time clock
reading; across the run it is reassigned only when a health check completes
(never mid-check, never by any other action), always to the clock reading
taken at the start of that check; hence, whenever the clock readings are
nondecreasing, last_check is monotonically non-decreasing over the whole
loop. -/
theorem c8_lastCheck_monotone (cfg : Config) (bs : List Batch) (st : KState)
    (o : IterOracle) (t0 : Int)
    (hclock : List.Chain' (· ≤ ·) (st.lastCheck :: batchNows bs)) :
    (initState t0).lastCheck = t0 ∧
      st.lastCheck ≤ (runLoop cfg st bs).1.lastCheck ∧
      ((runIter cfg st o).1.lastCheck = st.lastCheck ∨
        (st.checking = true ∧ (runIter cfg st o).2.2 = none ∧
          (runIter cfg st o).1.lastCheck = o.now)) :=
  ⟨rfl, runLoop_lastCheck_mono cfg bs st hclock, runIter_lastCheck cfg st o⟩

/-- C8 witness: with last_check 100 and a single check wake-up whose clock
reads 200, last_check does not decrease. -/
theorem c8_witness :
    stEx.lastCheck
      ≤ (runLoop cfgEx stEx [⟨[HandlerCall.check SIGALRM], oracleEx⟩]).1.lastCheck :=
  (c8_lastCheck_monotone cfgEx [⟨[HandlerCall.check SIGALRM], oracleEx⟩] stEx
      oracleEx 100 (by norm_num [batchNows, List.chain'_cons, stEx, initState, oracleEx])).2.1
